import Mathlib

/-!
Verification of the Action Recording and Deterministic Replay Engine of
`Scale4_screenshot.py` (browser screenshot manager).

The Python source is shallowly embedded: dictionaries with optional fields
become structures of `Option` fields, the wall clock value that
`int(time.time() * 1000)` or `Date.now()` would produce is passed in as an
explicit integer parameter, and fallible Playwright primitives are modelled
by explicit failure flags.  All definitions follow the source line by line;
the few definitions written from the specification text instead are marked
as such in their doc comments.
-/

namespace Screenshot

/-- Raw events captured by the in-page inline recorder
(`window.__showInlineRecorder` in `OVERLAY_JS`).  They arrive as JSON
dictionaries, so every payload field is optional; `type` is the dispatch
string and `t` the recorded timestamp in milliseconds. -/
structure RawEvent where
  type : String
  x : Option Int
  y : Option Int
  key : Option String
  t : Option Int
deriving DecidableEq

/-- Actions stored in an entry and consumed by `replay_actions_on_page`.
The compiler emits the first six forms; `other` stands for any action
dictionary whose `type` string is none of the known ones (the replay
engine's final `else` branch). -/
inductive Action where
  | wait (ms : Int)
  | click (x y : Int)
  | scrollTo (x y : Int)
  | mousedown (x y : Int)
  | mouseup (x y : Int)
  | keyboard (key : Option String)
  | other (typ : String)
deriving DecidableEq

/-- Sort key used by `sorted(events, key=lambda e: e.get("t", 0))`. -/
def sortKey (e : RawEvent) : Int :=
  e.t.getD 0

/-- Boolean comparison on the sort key, for the stable sort. -/
def eventLE (a b : RawEvent) : Bool :=
  sortKey a ≤ sortKey b

/-- The stable sort `sorted(events, key=lambda e: e.get("t", 0))`. -/
def sortByT (events : List RawEvent) : List RawEvent :=
  events.mergeSort eventLE

/-- The per-event branch of `convert_recorded_events_to_actions`: the
`if typ == ...` chain mapping a raw event to at most one action.  Events of
any other `type` (for example `mousemove`, `wheel` or `keydown`) fall
through the chain and produce no action. -/
def emitAction (ev : RawEvent) : Option Action :=
  if ev.type = "click" then some (.click (ev.x.getD 0) (ev.y.getD 0))
  else if ev.type = "scroll" then some (.scrollTo (ev.x.getD 0) (ev.y.getD 0))
  else if ev.type = "mousedown" then some (.mousedown (ev.x.getD 0) (ev.y.getD 0))
  else if ev.type = "mouseup" then some (.mouseup (ev.x.getD 0) (ev.y.getD 0))
  else if ev.type = "keyboard" then some (.keyboard ev.key)
  else none

/-- The `for ev in events_sorted` loop of
`convert_recorded_events_to_actions`: `lastT` is the running `last_t`
variable, `t = ev.get("t", last_t)`, a `wait` of exactly `delta` is
appended when `delta > 40`, then the type-mapped action (when any), and
`last_t` is set to `t`. -/
def convertLoop : Int → List RawEvent → List Action
  | _, [] => []
  | lastT, ev :: rest =>
    let t := ev.t.getD lastT
    let delta := t - lastT
    (if delta > 40 then [Action.wait delta] else []) ++
      (emitAction ev).toList ++ convertLoop t rest

/-- `convert_recorded_events_to_actions(events)`.  `nowMs` is the value
`int(time.time() * 1000)` read when the function runs: it is the default
for `last_t` when the first sorted event has no `t` key. -/
def convert_recorded_events_to_actions (events : List RawEvent) (nowMs : Int) :
    List Action :=
  match sortByT events with
  | [] => []
  | e0 :: rest => convertLoop (e0.t.getD nowMs) (e0 :: rest)

/-- Wait actions carry a non-negative duration; all other actions pass. -/
def waitNonneg : Action → Bool
  | .wait ms => decide (0 ≤ ms)
  | _ => true

/-- Whether an action is a `wait`. -/
def isWait : Action → Bool
  | .wait _ => true
  | _ => false

/-- The running actual timestamps of the compiler loop: each event
contributes `t = ev.get("t", last_t)` and that `t` becomes the next
`last_t`. -/
def actualTimes (t0 : Int) : List RawEvent → List Int
  | [] => []
  | e :: rest =>
    let t := e.t.getD t0
    t :: actualTimes t rest

/-- One step of the specification-level compile: given the gap from the
previous timestamp and the event, emit the `wait` for gaps over 40 ms and
then the type-mapped action. -/
def specStep (p : Int × RawEvent) : List Action :=
  (if p.1 > 40 then [Action.wait p.1] else []) ++ (emitAction p.2).toList

/-- Specification-level restatement of the compiler, written as the spec
describes it: sort the events by `t`, pair every event with its gap from
the previous actual timestamp, and concatenate the per-event emissions. -/
def compile_spec (events : List RawEvent) (nowMs : Int) : List Action :=
  match sortByT events with
  | [] => []
  | e0 :: rest =>
    let s := e0 :: rest
    let t0 := e0.t.getD nowMs
    let ts := actualTimes t0 s
    ((ts.zipWith (fun a b => a - b) (t0 :: ts)).zip s).flatMap specStep

/-- The outcome of `take_screenshot_and_compare`: the boolean it returns,
the artifact file content at `path` afterwards, whether the temporary
capture file is still on disk, and the two hashes it logged. -/
structure CompareResult where
  changed : Bool
  artifact : Option Nat
  tmpRemains : Bool
  newHash : String
  prevHash : String
deriving DecidableEq

/-- The hash helper `file_sha256`: the empty string for a missing file,
the digest of the content otherwise.  File contents are abstracted to
naturals and the digest function is a parameter. -/
def file_sha256 (hash : Nat → String) (file : Option Nat) : String :=
  match file with
  | none => ""
  | some c => hash c

/-- Pure core of `take_screenshot_and_compare(page, path, clip)`: `prior`
is the artifact content at `path` before the call (`none` when the file
does not exist) and `capture` the freshly captured temporary file.  The
function compares `prev_hash` (empty when no prior file) with `new_hash`;
on equality it unlinks the temporary file and reports no change, otherwise
it unlinks any prior file, renames the temporary file onto `path` and
reports a change. -/
def take_screenshot_and_compare (hash : Nat → String) (prior : Option Nat)
    (capture : Nat) : CompareResult :=
  let prev_hash := if prior.isSome then file_sha256 hash prior else ""
  let new_hash := file_sha256 hash (some capture)
  if prev_hash ≠ "" ∧ prev_hash = new_hash then
    { changed := false, artifact := prior, tmpRemains := false
      newHash := new_hash, prevHash := prev_hash }
  else
    { changed := true, artifact := some capture, tmpRemains := false
      newHash := new_hash, prevHash := prev_hash }

/-- Failure environment for one replayed action: whether the primary
Playwright primitive of its branch raises, and whether the fallback path
(when the branch has one) raises too. -/
structure StepEnv where
  primaryFails : Bool
  fallbackFails : Bool
deriving DecidableEq

/-- One iteration of the `for act in actions` loop of
`replay_actions_on_page`; `true` means the iteration finishes and the loop
moves on, `false` means an exception escapes the iteration.  Per the
source: `wait` only sleeps; `click` tries `page.mouse.click` and, on
failure, runs a `page.evaluate` fallback that is not inside any `try`;
`scrollTo`, `mousedown` and `mouseup` wrap their whole body in
`try/except pass`; `keyboard` tries `press` and falls back to
`insertText` inside a nested `try/except pass`; unknown types sleep. -/
def replay_step (env : StepEnv) (a : Action) : Bool :=
  match a with
  | .wait _ => true
  | .click _ _ => !env.primaryFails || !env.fallbackFails
  | .scrollTo _ _ => true
  | .mousedown _ _ => true
  | .mouseup _ _ => true
  | .keyboard _ => true
  | .other _ => true

/-- `replay_actions_on_page`, abstracted over the failure environment of
each step: `true` when the loop runs every action to its end, `false`
when an uncaught exception aborts it. -/
def replay_actions_on_page : List (StepEnv × Action) → Bool
  | [] => true
  | (env, a) :: rest => replay_step env a && replay_actions_on_page rest

/-- How many actions of the list the loop actually reaches: an uncaught
exception at a step leaves every later action unexecuted. -/
def replay_steps_executed : List (StepEnv × Action) → Nat
  | [] => 0
  | (env, a) :: rest =>
    if replay_step env a then replay_steps_executed rest + 1 else 1

/-- Whether a step is a `click` whose primary primitive and whose fallback
both raise: by `replay_step` this is the one way a step aborts the loop. -/
def click_double_fault (p : StepEnv × Action) : Bool :=
  match p.2 with
  | .click _ _ => p.1.primaryFails && p.1.fallbackFails
  | _ => false

/-- A stored clip dictionary `{x, y, width, height}`; every field is
optional because entries arrive from JSON (`bulk_add` accepts any shape). -/
structure ClipDict where
  x : Option Int
  y : Option Int
  width : Option Int
  height : Option Int
deriving DecidableEq

/-- Python truthiness of the clip dictionary: an empty dictionary is
falsy, one with any key truthy.  Under the four-key schema this is
whether any field is present. -/
def clip_truthy (c : ClipDict) : Bool :=
  c.x.isSome || c.y.isSome || c.width.isSome || c.height.isSome

/-- The clip test of the `take_index` and `take_all` handlers:
`if not clip or clip.get("width", 0) == 0 or clip.get("height", 0) == 0`,
which selects the full-page screenshot branch; otherwise the stored clip
drives a region capture. -/
def take_index_full_page_fallback (clip : Option ClipDict) : Bool :=
  match clip with
  | none => true
  | some c =>
    !clip_truthy c || decide (c.width.getD 0 = 0) || decide (c.height.getD 0 = 0)

/-- The clip rectangle the region selector resolves, integer document
coordinates. -/
structure SelClip where
  x : Int
  y : Int
  width : Int
  height : Int
deriving DecidableEq

/-- The `up` handler of `window.__selectClip` in `OVERLAY_JS`: on mouse
up it resolves a rectangle whose origin is the minimum corner plus the
scroll offset and whose width and height are
`Math.max(1, Math.abs(end - start))` in each axis.  All inputs are CSS
pixel coordinates. -/
def selectClip_up (startX startY clientX clientY scrollX scrollY : Int) :
    Option SelClip :=
  some { x := min startX clientX + scrollX
         y := min startY clientY + scrollY
         width := max 1 |clientX - startX|
         height := max 1 |clientY - startY| }

/-- The Escape branch of `window.__selectClip`: it resolves `null`, the
explicit no-selection result. -/
def selectClip_escape : Option SelClip :=
  none

/-- The `clickHandler` of the inline recorder: unless the click lands on
the recorder bar it pushes `{type: 'click', x, y, t: Date.now()}`;
`nowMs` is the `Date.now()` value at the event. -/
def clickHandler (onRecorderBar : Bool) (nowMs x y : Int) : Option RawEvent :=
  if onRecorderBar then none
  else some { type := "click", x := some x, y := some y, key := none, t := some nowMs }

/-- The `mouseDownHandler` of the inline recorder. -/
def mouseDownHandler (onRecorderBar : Bool) (nowMs x y : Int) : Option RawEvent :=
  if onRecorderBar then none
  else some { type := "mousedown", x := some x, y := some y, key := none, t := some nowMs }

/-- The `mouseUpHandler` of the inline recorder. -/
def mouseUpHandler (onRecorderBar : Bool) (nowMs x y : Int) : Option RawEvent :=
  if onRecorderBar then none
  else some { type := "mouseup", x := some x, y := some y, key := none, t := some nowMs }

/-- The `keyHandler` of the inline recorder: it pushes
`{type: 'keyboard', key: e.key, t: Date.now()}` unconditionally. -/
def keyHandler (nowMs : Int) (key : String) : RawEvent :=
  { type := "keyboard", x := none, y := none, key := some key, t := some nowMs }

/-- The throttle state of the recorder's scroll handler: the last emitted
scroll position and its `Date.now()` time. -/
structure ScrollState where
  x : Int
  y : Int
  t : Int
deriving DecidableEq

/-- The `scrollHandler` of the inline recorder: it emits
`{type: 'scroll', x, y, t: now}` only when the scroll position changed
and more than 80 ms passed since the last emission, updating the throttle
state; otherwise it emits nothing and keeps the state. -/
def scrollHandler (last : ScrollState) (nowMs x y : Int) :
    Option RawEvent × ScrollState :=
  if (x ≠ last.x ∨ y ≠ last.y) ∧ nowMs - last.t > 80 then
    (some { type := "scroll", x := some x, y := some y, key := none, t := some nowMs },
      { x := x, y := y, t := nowMs })
  else
    (none, last)

/-- Milliseconds elapsed since the start of the recording session.
Modelled from the spec: the specification says every emitted event
carries `t` equal to the milliseconds since recording start; this is that
quantity, for comparison with the `t` the handlers actually record. -/
def elapsed_since_session_start (sessionStartMs nowMs : Int) : Int :=
  nowMs - sessionStartMs

/-- The artifact file name the `take_index` and `take_all` handlers build:
the f-string interpolation of `png_name` followed by the literal
characters `.png`, with no other transformation.  Names are lists of
characters. -/
def artifact_file_name (png_name : List Char) : List Char :=
  png_name ++ ".png".data

/-- Characters commonly unsafe in file names. -/
def unsafe_fs_char (c : Char) : Bool :=
  c = '/' || c = '\\' || c = ':' || c = '*' || c = '?' ||
    c = '"' || c = '<' || c = '>' || c = '|'

/-- Sanitized artifact name.  Modelled from the spec: the specification
says filesystem-unsafe characters are replaced with an underscore and the
`.png` extension is appended only when missing; no such code exists in
the repository, this definition follows the spec words for comparison. -/
def sanitized_name_spec (png_name : List Char) : List Char :=
  let safe := png_name.map fun c => if unsafe_fs_char c then '_' else c
  if ".png".data.isSuffixOf safe then safe else safe ++ ".png".data

/-- A parsed JSON value at the granularity `load_json` needs: a JSON
array (its entry records abstracted to identifiers), a number, a string,
or any other JSON value. -/
inductive JsonValue where
  | jarr (entries : List Nat)
  | jnum (n : Int)
  | jstr (s : String)
  | jobj
deriving DecidableEq

/-- The state of the entry-store file `screenshots.json`: absent from
disk, present but empty or not valid JSON, or holding text that parses to
a JSON value. -/
inductive EntryFileState where
  | absent
  | invalid
  | parsed (v : JsonValue)
deriving DecidableEq

/-- The helper `ensure_json`: when the file does not exist it writes the
text `[]`, which parses to the empty array; otherwise it leaves the file
alone. -/
def ensure_json : EntryFileState → EntryFileState
  | .absent => .parsed (.jarr [])
  | s => s

/-- The loader `load_json`: it first runs `ensure_json`, then returns
`json.loads` of the file text, or the empty list when parsing raises. -/
def load_json (s : EntryFileState) : JsonValue :=
  match ensure_json s with
  | .parsed v => v
  | _ => .jarr []

/-! Theorems. -/

/-- Claim C1: the action compiler is deterministic.  The only impure value
`convert_recorded_events_to_actions` can read is the wall clock (the
default for the first timestamp), and for every sequence of raw events
that all carry their `t` field, the output is independent of it, so
compiling the same sequence twice yields the identical action list. -/
theorem convert_deterministic (events : List RawEvent) (n1 n2 : Int)
    (h : events.all (fun e => e.t.isSome) = true) :
    convert_recorded_events_to_actions events n1 =
      convert_recorded_events_to_actions events n2 := by
  unfold convert_recorded_events_to_actions
  cases hs : sortByT events with
  | nil => rfl
  | cons e0 rest =>
    have h1 : e0 ∈ sortByT events := by
      rw [hs]; exact List.mem_cons_self e0 rest
    have he0 : e0 ∈ events := by
      simpa [sortByT] using h1
    have ht : e0.t.isSome = true := by
      simpa using List.all_eq_true.mp h e0 he0
    obtain ⟨v, hv⟩ := Option.isSome_iff_exists.mp ht
    show convertLoop (e0.t.getD n1) (e0 :: rest) =
      convertLoop (e0.t.getD n2) (e0 :: rest)
    rw [hv]
    rfl

/-- Witness for C1 at a concrete one-event recording. -/
theorem convert_deterministic_witness :
    convert_recorded_events_to_actions
        [⟨"click", some 1, some 2, none, some 100⟩] 0 =
      convert_recorded_events_to_actions
        [⟨"click", some 1, some 2, none, some 100⟩] 999 :=
  convert_deterministic [⟨"click", some 1, some 2, none, some 100⟩] 0 999
    (by decide)

/-- Claim C2: `take_screenshot_and_compare` promotes the capture exactly
when no prior artifact exists or the hashes differ; on identical hashes
it deletes the temporary capture, reports no change and leaves the prior
artifact content untouched.  The hypothesis records that a SHA-256 hex
digest is never the empty string, the sentinel `file_sha256` returns for
a missing file. -/
theorem take_screenshot_and_compare_spec (hash : Nat → String)
    (prior : Option Nat) (capture : Nat) (hh : ∀ c, hash c ≠ "") :
    ((take_screenshot_and_compare hash prior capture).changed = true ∧
        (take_screenshot_and_compare hash prior capture).artifact = some capture ↔
      prior = none ∨ ∃ p, prior = some p ∧ hash p ≠ hash capture) ∧
    (∀ p, prior = some p → hash p = hash capture →
      (take_screenshot_and_compare hash prior capture).changed = false ∧
        (take_screenshot_and_compare hash prior capture).artifact = some p ∧
        (take_screenshot_and_compare hash prior capture).tmpRemains = false) := by
  cases prior with
  | none =>
    simp [take_screenshot_and_compare, file_sha256]
  | some p =>
    by_cases hpc : hash p = hash capture
    · simp [take_screenshot_and_compare, file_sha256, hpc, hh capture]
    · simp [take_screenshot_and_compare, file_sha256, hpc, hh p]

/-- Witness for C2: identical hashes discard the capture and keep the
prior artifact. -/
theorem take_screenshot_and_compare_witness :
    (take_screenshot_and_compare (fun _ => "h") (some 3) 3).changed = false ∧
      (take_screenshot_and_compare (fun _ => "h") (some 3) 3).artifact = some 3 ∧
      (take_screenshot_and_compare (fun _ => "h") (some 3) 3).tmpRemains = false :=
  (take_screenshot_and_compare_spec (fun _ => "h") (some 3) 3
    (by intro c; simp)).2 3 rfl rfl

/-- The compiler loop equals the specification-level recomposition: pair
every event with its gap from the previous actual timestamp and
concatenate the per-event emissions. -/
theorem convertLoop_eq_spec (l : List RawEvent) (t0 : Int) :
    convertLoop t0 l =
      (((actualTimes t0 l).zipWith (fun a b => a - b) (t0 :: actualTimes t0 l)).zip
        l).flatMap specStep := by
  induction l generalizing t0 with
  | nil => rfl
  | cons e rest ih =>
    simp only [convertLoop, actualTimes, List.zipWith_cons_cons, List.zip_cons_cons,
      List.flatMap_cons, specStep, ih, List.append_assoc]

/-- Claim C3 (amended): the compiler sorts the events by `t`, emits a
`wait` carrying exactly the gap when it exceeds 40 ms, and then the
type-mapped action for events of type `click`, `scroll`, `mousedown`,
`mouseup` or `keyboard`, with their fields unchanged; events of any other
type, `mousemove` and `wheel` among them, yield no type-mapped action. -/
theorem convert_eq_compile_spec (events : List RawEvent) (nowMs : Int) :
    convert_recorded_events_to_actions events nowMs = compile_spec events nowMs := by
  unfold convert_recorded_events_to_actions compile_spec
  cases hs : sortByT events with
  | nil => rfl
  | cons e0 rest => exact convertLoop_eq_spec (e0 :: rest) (e0.t.getD nowMs)

/-- Counterexample for C3 as stated: a recorded `wheel` event and a
recorded `mousemove` event each compile to no action at all, against the
claim that every raw event type yields a type-mapped action. -/
theorem convert_drops_wheel_and_mousemove :
    convert_recorded_events_to_actions [⟨"wheel", some 3, some 4, none, some 0⟩] 0 = [] ∧
      convert_recorded_events_to_actions
        [⟨"mousemove", some 5, some 6, none, some 0⟩] 0 = [] := by
  constructor <;>
    simp [convert_recorded_events_to_actions, sortByT, convertLoop, emitAction]

/-- Emitted type-mapped actions are never `wait` actions. -/
theorem isWait_emitAction (ev : RawEvent) (a : Action)
    (h : emitAction ev = some a) : isWait a = false := by
  unfold emitAction at h
  split_ifs at h
  all_goals injection h with h2
  all_goals subst h2
  all_goals rfl

/-- Filtering the wait part of one loop iteration away leaves nothing. -/
theorem filter_nonWait_waitPart (c : Prop) [Decidable c] (d : Int) :
    ((if c then [Action.wait d] else []).filter (fun a => !(isWait a))) = [] := by
  split_ifs <;> rfl

/-- Filtering for non-wait actions keeps every type-mapped action. -/
theorem filter_nonWait_toList (ev : RawEvent) :
    ((emitAction ev).toList).filter (fun a => !(isWait a)) = (emitAction ev).toList := by
  cases he : emitAction ev with
  | none => rfl
  | some a =>
    have hw := isWait_emitAction ev a he
    simp [List.filter_cons, hw]

/-- Every `wait` the compiler loop emits carries a non-negative duration. -/
theorem convertLoop_waitNonneg (l : List RawEvent) (t0 : Int) :
    (convertLoop t0 l).all waitNonneg = true := by
  induction l generalizing t0 with
  | nil => rfl
  | cons e rest ih =>
    simp only [convertLoop, List.all_append, Bool.and_eq_true]
    refine ⟨⟨?_, ?_⟩, ih _⟩
    · split_ifs with hgt
      · simp only [List.all_cons, List.all_nil, Bool.and_true, waitNonneg,
          decide_eq_true_eq]
        omega
      · rfl
    · cases he : emitAction e with
      | none => rfl
      | some a =>
        have hw := isWait_emitAction e a he
        cases a <;> simp_all [waitNonneg, isWait]

/-- The non-wait part of the compiler loop output is exactly the mapped
actions of its input events, in input order. -/
theorem convertLoop_filter_nonWait (l : List RawEvent) (t0 : Int) :
    (convertLoop t0 l).filter (fun a => !(isWait a)) = l.filterMap emitAction := by
  induction l generalizing t0 with
  | nil => rfl
  | cons e rest ih =>
    simp only [convertLoop, List.filter_append, ih, List.filterMap_cons,
      filter_nonWait_waitPart, filter_nonWait_toList, List.nil_append]
    cases he : emitAction e with
    | none => simp [he]
    | some a => simp [he]

/-- Claim C9: the compiler output satisfies the invariants: every emitted
`wait` carries a non-negative duration, the non-wait actions are exactly
the per-event mapped actions of the sorted event list, and the events
contributing them stand in non-decreasing order of their sort
timestamps. -/
theorem convert_invariants (events : List RawEvent) (nowMs : Int) :
    (convert_recorded_events_to_actions events nowMs).all waitNonneg = true ∧
    (convert_recorded_events_to_actions events nowMs).filter (fun a => !(isWait a)) =
      (sortByT events).filterMap emitAction ∧
    ((sortByT events).filter (fun e => (emitAction e).isSome)).Pairwise
      (fun a b => sortKey a ≤ sortKey b) := by
  refine ⟨?_, ?_, ?_⟩
  · unfold convert_recorded_events_to_actions
    cases hs : sortByT events with
    | nil => rfl
    | cons e0 rest => exact convertLoop_waitNonneg (e0 :: rest) _
  · unfold convert_recorded_events_to_actions
    cases hs : sortByT events with
    | nil => rfl
    | cons e0 rest => exact convertLoop_filter_nonWait (e0 :: rest) _
  · have hsorted : (sortByT events).Pairwise (fun a b => eventLE a b = true) := by
      refine List.sorted_mergeSort ?_ ?_ events
      · intro a b c hab hbc
        simp only [eventLE, decide_eq_true_eq] at hab hbc ⊢
        omega
      · intro a b
        simp only [eventLE, Bool.or_eq_true, decide_eq_true_eq]
        omega
    have hsub : ((sortByT events).filter
        (fun e => (emitAction e).isSome)).Pairwise (fun a b => eventLE a b = true) :=
      List.Pairwise.sublist (List.filter_sublist _) hsorted
    exact hsub.imp fun h => by simpa [eventLE] using h

/-- A replay step finishes exactly when it is not a click whose primary
primitive and fallback both raise. -/
theorem replay_step_eq (env : StepEnv) (a : Action) :
    replay_step env a = !click_double_fault (env, a) := by
  cases a <;> simp [replay_step, click_double_fault]

/-- Claim C4 (amended): replay catches the failures of every action
branch except one: the `click` fallback (the `page.evaluate` dispatch run
after `page.mouse.click` raises) is outside any `try`, so a click whose
primary primitive and fallback both fail aborts the remaining sequence;
replay runs every action to the end exactly when no step is such a
double-faulting click. -/
theorem replay_completes_iff (steps : List (StepEnv × Action)) :
    replay_actions_on_page steps = true ↔
      steps.all (fun p => !click_double_fault p) = true := by
  induction steps with
  | nil => simp [replay_actions_on_page]
  | cons p rest ih =>
    obtain ⟨env, a⟩ := p
    simp [replay_actions_on_page, replay_step_eq, ih]

/-- Counterexample for C4 as stated: a `click` whose primary primitive
and whose uncaught fallback both fail aborts the loop, leaving the
following `wait` action unexecuted. -/
theorem replay_aborts_on_click_fallback_failure :
    replay_actions_on_page
        [(⟨true, true⟩, Action.click 5 5), (⟨false, false⟩, Action.wait 10)] = false ∧
      replay_steps_executed
        [(⟨true, true⟩, Action.click 5 5), (⟨false, false⟩, Action.wait 10)] = 1 := by
  decide

/-- Claim C5 (amended): the `take_index` / `take_all` handlers use the
stored clip for a region capture exactly when the clip dictionary is
present and non-empty and its `width` and `height` default-to-zero values
are both non-zero; in particular a clip with a negative dimension is used
for a region capture, it does not fall back to a full-page screenshot. -/
theorem take_index_fallback_iff (clip : Option ClipDict) :
    take_index_full_page_fallback clip = false ↔
      ∃ c, clip = some c ∧ clip_truthy c = true ∧
        c.width.getD 0 ≠ 0 ∧ c.height.getD 0 ≠ 0 := by
  cases clip with
  | none => simp [take_index_full_page_fallback]
  | some c => simp [take_index_full_page_fallback, and_assoc]

/-- Counterexample for C5 as stated: a stored clip of width `-1` is not
greater than zero, yet the handler does not fall back to a full-page
capture and drives a region capture with it. -/
theorem take_index_uses_negative_clip :
    take_index_full_page_fallback (some ⟨some 0, some 0, some (-1), some 10⟩) = false ∧
      ¬(0 < (-1 : Int)) := by
  decide

/-- Claim C6 (amended): the region selector never resolves a clip of zero
width or height, but it also never resolves the explicit no-selection
result on mouse up: every drag, a zero-area one included, resolves a clip
whose width and height are at least one. -/
theorem selectClip_up_resolves_positive_clip
    (startX startY clientX clientY scrollX scrollY : Int) :
    ∃ c, selectClip_up startX startY clientX clientY scrollX scrollY = some c ∧
      1 ≤ c.width ∧ 1 ≤ c.height :=
  ⟨_, rfl, le_max_left 1 _, le_max_left 1 _⟩

/-- Counterexample for C6 as stated: a zero-area drag (mouse up at the
mouse-down point) resolves a valid 1 by 1 clip, not the no-selection
result the Escape branch produces. -/
theorem selectClip_zero_drag_yields_unit_clip :
    selectClip_up 10 20 10 20 0 0 = some ⟨10, 20, 1, 1⟩ ∧
      selectClip_up 10 20 10 20 0 0 ≠ selectClip_escape := by
  decide

/-- Claim C7 (amended): every event the recorder handlers emit carries
`t` equal to the `Date.now()` wall-clock value at the moment of emission,
the same clock for all handlers of the session; it is an absolute epoch
timestamp, not an offset from the recording start. -/
theorem recorder_t_is_wall_clock (now x y sx sy : Int) (key : String)
    (last : ScrollState) :
    (clickHandler false now x y).map RawEvent.t = some (some now) ∧
    (mouseDownHandler false now x y).map RawEvent.t = some (some now) ∧
    (mouseUpHandler false now x y).map RawEvent.t = some (some now) ∧
    (keyHandler now key).t = some now ∧
    Option.all (fun e => decide (e.t = some now)) (scrollHandler last now sx sy).1 = true := by
  refine ⟨rfl, rfl, rfl, rfl, ?_⟩
  unfold scrollHandler
  split_ifs <;> simp

/-- Counterexample for C7 as stated: for a session started at epoch
millisecond 1000, a click at epoch millisecond 1500 is recorded with
`t = 1500`, not the 500 milliseconds elapsed since the session start. -/
theorem recorder_t_not_session_relative :
    (clickHandler false 1500 10 20).map RawEvent.t = some (some 1500) ∧
      (1500 : Int) ≠ elapsed_since_session_start 1000 1500 := by
  decide

/-- Claim C8 (amended): the artifact file name is `png_name` kept
verbatim (unsafe characters not replaced) with `.png` appended
unconditionally, so the name always ends in `.png` but is not sanitized
and a name already carrying the extension gets it twice. -/
theorem artifact_file_name_verbatim (png_name : List Char) :
    png_name <+: artifact_file_name png_name ∧
      ".png".data <:+ artifact_file_name png_name :=
  ⟨⟨".png".data, rfl⟩, ⟨png_name, rfl⟩⟩

/-- Counterexample for C8 as stated: the name `a/b` keeps its slash on
disk and differs from the sanitized name the spec describes, and a name
already ending in `.png` gets a second extension. -/
theorem artifact_file_name_not_sanitized :
    artifact_file_name "a/b".data = "a/b.png".data ∧
      '/' ∈ artifact_file_name "a/b".data ∧
      artifact_file_name "a/b".data ≠ sanitized_name_spec "a/b".data ∧
      artifact_file_name "x.png".data ≠ sanitized_name_spec "x.png".data := by
  decide

/-- Claim C10: `load_json` never raises, returns the empty list for a
missing file (after writing the baseline empty store) and for unparsable
contents, but passes any parsed JSON value through unchanged — so a file
holding the valid JSON text `5` makes it return the number 5, which is
not a list, against its declared return type. -/
theorem load_json_passthrough_nonlist :
    load_json (EntryFileState.parsed (JsonValue.jnum 5)) = JsonValue.jnum 5 ∧
      (∀ entries, JsonValue.jnum 5 ≠ JsonValue.jarr entries) ∧
      load_json EntryFileState.absent = JsonValue.jarr [] ∧
      load_json EntryFileState.invalid = JsonValue.jarr [] :=
  ⟨rfl, fun _ h => JsonValue.noConfusion h, rfl, rfl⟩

end Screenshot
